import Mathlib

/-!
Shallow embedding of the group storage layer of `xmtp_mls`
(`src/xmtp_mls/src/storage/encrypted_store/group.rs` and
`src/xmtp_mls/src/storage/encrypted_store/mod.rs`).

The database table `groups` is modelled as a `List StoredGroup`; SQL
queries are modelled by sorting/filtering that list.  The SQLite engine
itself can also fail for environmental reasons (I/O, locking); those
failure modes are outside the model, so operations whose only error
source is the engine are modelled as total functions on the list, while
operations that return an error by their own logic return `Except`.
-/

namespace XmtpStorage

/-- Membership state of the local member in a group
(`GroupMembershipState` in group.rs, discriminants 1, 2, 3). -/
inductive GroupMembershipState where
  | Allowed
  | Rejected
  | Pending
deriving DecidableEq, Repr

/-- Group purpose (`Purpose` in group.rs, discriminants 1, 2). -/
inductive Purpose where
  | Conversation
  | Sync
deriving DecidableEq, Repr

/-- A row of the `groups` table (`StoredGroup` in group.rs).
`Vec<u8>` ids are modelled as `List Nat`, `i64` as `Int`. -/
structure StoredGroup where
  id : List Nat
  created_at_ns : Int
  membership_state : GroupMembershipState
  installations_last_checked : Int
  purpose : Purpose
  added_by_inbox_id : String
  welcome_id : Option Int
  dm_inbox_id : Option String
deriving DecidableEq, Repr

/-- `StoredGroup::new_from_welcome` (group.rs). -/
def StoredGroup.new_from_welcome (id : List Nat) (created_at_ns : Int)
    (membership_state : GroupMembershipState) (added_by_inbox_id : String)
    (welcome_id : Int) (purpose : Purpose) (dm_inbox_id : Option String) :
    StoredGroup :=
  { id := id
    created_at_ns := created_at_ns
    membership_state := membership_state
    installations_last_checked := 0
    purpose := purpose
    added_by_inbox_id := added_by_inbox_id
    welcome_id := some welcome_id
    dm_inbox_id := dm_inbox_id }

/-- `StoredGroup::new` (group.rs): a `Purpose::Conversation` group. -/
def StoredGroup.new (id : List Nat) (created_at_ns : Int)
    (membership_state : GroupMembershipState) (added_by_inbox_id : String)
    (dm_inbox_id : Option String) : StoredGroup :=
  { id := id
    created_at_ns := created_at_ns
    membership_state := membership_state
    installations_last_checked := 0
    purpose := Purpose.Conversation
    added_by_inbox_id := added_by_inbox_id
    welcome_id := none
    dm_inbox_id := dm_inbox_id }

/-- `StoredGroup::new_sync_group` (group.rs): a `Purpose::Sync` group. -/
def StoredGroup.new_sync_group (id : List Nat) (created_at_ns : Int)
    (membership_state : GroupMembershipState) : StoredGroup :=
  { id := id
    created_at_ns := created_at_ns
    membership_state := membership_state
    installations_last_checked := 0
    purpose := Purpose.Sync
    added_by_inbox_id := ""
    welcome_id := none
    dm_inbox_id := none }

/-- `ToSql<Integer, Sqlite> for GroupMembershipState` (group.rs):
`*self as i32`. -/
def GroupMembershipState.to_sql : GroupMembershipState → Int
  | .Allowed => 1
  | .Rejected => 2
  | .Pending => 3

/-- `FromSql<Integer, Sqlite> for GroupMembershipState` (group.rs):
decodes 1, 2, 3 and fails on any other integer. -/
def GroupMembershipState.from_sql (x : Int) :
    Except String GroupMembershipState :=
  if x = 1 then .ok .Allowed
  else if x = 2 then .ok .Rejected
  else if x = 3 then .ok .Pending
  else .error ("Unrecognized variant " ++ toString x)

/-- `ToSql<Integer, Sqlite> for Purpose` (group.rs): `*self as i32`. -/
def Purpose.to_sql : Purpose → Int
  | .Conversation => 1
  | .Sync => 2

/-- `FromSql<Integer, Sqlite> for Purpose` (group.rs):
decodes 1, 2 and fails on any other integer. -/
def Purpose.from_sql (x : Int) : Except String Purpose :=
  if x = 1 then .ok .Conversation
  else if x = 2 then .ok .Sync
  else .error ("Unrecognized variant " ++ toString x)

/-- The kind carried by `diesel::result::Error::DatabaseError`; only the
unique-constraint kind matters to this development. -/
inductive DatabaseErrorKind where
  | uniqueViolation
  | other
deriving DecidableEq, Repr

/-- `diesel::result::Error`, restricted to the constructors this layer
inspects. -/
inductive DieselError where
  | brokenTransactionManager
  | databaseError (kind : DatabaseErrorKind)
  | notFound
deriving DecidableEq, Repr

/-- `DuplicateItem` (lib.rs of xmtp_mls, used by `StorageError::Duplicate`). -/
inductive DuplicateItem where
  | welcomeId (id : Option Int)
deriving DecidableEq, Repr

/-- `StorageError`, restricted to the variants produced by the code under
scrutiny. -/
inductive StorageError where
  | notFound (msg : String)
  | duplicate (item : DuplicateItem)
  | dieselResult (e : DieselError)
deriving DecidableEq, Repr

/-- The comparison `ORDER BY created_at_ns ASC` sorts by. -/
def createdLe (a b : StoredGroup) : Prop :=
  a.created_at_ns ≤ b.created_at_ns

instance : DecidableRel createdLe := fun a b =>
  inferInstanceAs (Decidable (a.created_at_ns ≤ b.created_at_ns))

instance : IsTotal StoredGroup createdLe :=
  ⟨fun a b => Int.le_total a.created_at_ns b.created_at_ns⟩

instance : IsTrans StoredGroup createdLe :=
  ⟨fun _ _ _ hab hbc => Int.le_trans hab hbc⟩

/-- `ORDER BY created_at_ns ASC`, modelled as a stable sort of the table. -/
def sortByCreatedAt (db : List StoredGroup) : List StoredGroup :=
  db.insertionSort createdLe

/-- `hex::encode` over a byte list, used in the `NotFound` message of
`get_installations_time_checked`. -/
def hexDigit (n : Nat) : Char :=
  if n < 10 then Char.ofNat (48 + n) else Char.ofNat (87 + n)

def hexEncode (bytes : List Nat) : String :=
  String.mk (bytes.foldr
    (fun b acc => hexDigit (b / 16 % 16) :: hexDigit (b % 16) :: acc) [])

/-- `if let Some(x) = arg { query = query.filter(p(x)) }` — a query
filter that is applied only when its argument is supplied. -/
def optFilter {β : Type} (o : Option β) (p : β → StoredGroup → Bool)
    (l : List StoredGroup) : List StoredGroup :=
  match o with
  | some b => l.filter (p b)
  | none => l

/-- `if let Some(limit) = limit { query = query.limit(limit) }` — the
`i64` is passed to SQLite unchecked, and SQLite's `LIMIT` with a negative
value places no upper bound on the number of rows returned; a
nonnegative `LIMIT n` keeps the first `n` rows of the ordered result. -/
def applyLimit (o : Option Int) (l : List StoredGroup) : List StoredGroup :=
  match o with
  | some n => if n < 0 then l else l.take n.toNat
  | none => l

/-- `DbConnection::find_groups` (group.rs).  Diesel builds one SQL
statement, so `LIMIT` applies after every `WHERE` clause regardless of the
order the builder methods are called in; the model therefore applies the
filters first and `applyLimit` last.  The engine-error channel of the
Rust `Result` is outside the model. -/
def find_groups (db : List StoredGroup)
    (allowed_states : Option (List GroupMembershipState))
    (created_after_ns : Option Int) (created_before_ns : Option Int)
    (limit : Option Int) (include_dm_groups : Bool) : List StoredGroup :=
  let q := sortByCreatedAt db
  let q := optFilter allowed_states
    (fun states g => decide (g.membership_state ∈ states)) q
  let q := optFilter created_after_ns
    (fun t g => decide (t < g.created_at_ns)) q
  let q := optFilter created_before_ns
    (fun t g => decide (g.created_at_ns < t)) q
  let q := if include_dm_groups then q
    else q.filter (fun g => g.dm_inbox_id.isNone)
  let q := q.filter (fun g => decide (g.purpose = Purpose.Conversation))
  applyLimit limit q

/-- `DbConnection::find_sync_groups` (group.rs). -/
def find_sync_groups (db : List StoredGroup) : List StoredGroup :=
  (sortByCreatedAt db).filter (fun g => decide (g.purpose = Purpose.Sync))

/-- `DbConnection::find_group` (group.rs): order, `LIMIT 1`, filter by id,
first element. -/
def find_group (db : List StoredGroup) (id : List Nat) : Option StoredGroup :=
  (((sortByCreatedAt db).filter (fun g => decide (g.id = id))).take 1).head?

/-- `DbConnection::find_group_by_welcome_id` (group.rs): order by
`created_at_ns` ascending, filter `welcome_id = ?` (a SQL equality, so
`NULL` rows never match), log when more than one row matches, return the
first element.  Logging has no observable effect in the model. -/
def find_group_by_welcome_id (db : List StoredGroup) (welcome_id : Int) :
    Option StoredGroup :=
  ((sortByCreatedAt db).filter
    (fun g => decide (g.welcome_id = some welcome_id))).head?

/-- `DbConnection::update_group_membership` (group.rs): a SQL `UPDATE` on
the primary key; updating zero rows is not an error, so the model is
total. -/
def update_group_membership (db : List StoredGroup) (group_id : List Nat)
    (state : GroupMembershipState) : List StoredGroup :=
  db.map (fun g =>
    if g.id = group_id then { g with membership_state := state } else g)

/-- `DbConnection::get_installations_time_checked` (group.rs): primary-key
lookup of one column, `NotFound` when the row is absent. -/
def get_installations_time_checked (db : List StoredGroup)
    (group_id : List Nat) : Except StorageError Int :=
  match db.find? (fun g => decide (g.id = group_id)) with
  | some g => .ok g.installations_last_checked
  | none => .error (.notFound
      ("installation time for group " ++ hexEncode group_id))

/-- `DbConnection::update_installations_time_checked` (group.rs): sets the
column to `now_ns()`; the ambient clock is passed in as `now`.  Updating
zero rows is not an error. -/
def update_installations_time_checked (db : List StoredGroup)
    (group_id : List Nat) (now : Int) : List StoredGroup :=
  db.map (fun g =>
    if g.id = group_id then { g with installations_last_checked := now }
    else g)

/-- `DbConnection::insert_or_replace_group` (group.rs).  The insert with
`on_conflict_do_nothing` inserts exactly when no row with the candidate's
primary key exists; on conflict the existing row is loaded by primary key
(`find?`, the first — with unique ids, the only — row with that id) and
welcome ids are compared.  Returns the call's result together with the
table after the call. -/
def insert_or_replace_group (db : List StoredGroup) (group : StoredGroup) :
    Except StorageError StoredGroup × List StoredGroup :=
  match db.find? (fun g => decide (g.id = group.id)) with
  | none => (.ok group, db ++ [group])
  | some existing_group =>
    if existing_group.welcome_id = group.welcome_id then
      (.error (.duplicate (.welcomeId existing_group.welcome_id)), db)
    else
      (.ok existing_group, db)

/-- `impl_store!` (mod.rs): a plain `INSERT`, failing with a
unique-violation database error when a row with the same key exists.
Generic over the entity type and its unique key, as the macro is. -/
def store {α κ : Type} [DecidableEq κ] (key : α → κ) (db : List α)
    (entity : α) : Except StorageError (List α) :=
  if db.any (fun g => decide (key g = key entity)) then
    .error (.dieselResult (.databaseError .uniqueViolation))
  else
    .ok (db ++ [entity])

/-- `impl_store_or_ignore!` (mod.rs): `INSERT OR IGNORE`, a silent no-op
on a unique-constraint conflict. -/
def store_or_ignore {α κ : Type} [DecidableEq κ] (key : α → κ)
    (db : List α) (entity : α) : Except StorageError (List α) :=
  if db.any (fun g => decide (key g = key entity)) then
    .ok db
  else
    .ok (db ++ [entity])

/-- `ProviderTransactions::transaction` (mod.rs).  The work closure is a
state transformer on the table contents; `rollbackOutcome` is the result
the transaction manager's `rollback_transaction` would report (`none` for
success), and `liftDiesel` is the `E: From<diesel::result::Error>`
conversion.  `begin_transaction` and `commit_transaction` are modelled as
succeeding; a successful or broken-manager rollback restores the
pre-transaction state. -/
def transaction {σ A E : Type} (liftDiesel : DieselError → E)
    (rollbackOutcome : Option DieselError)
    (work : σ → Except E A × σ) (db : σ) : Except E A × σ :=
  match work db with
  | (.ok value, db1) => (.ok value, db1)
  | (.error err, _) =>
    match rollbackOutcome with
    | none => (.error err, db)
    | some .brokenTransactionManager => (.error err, db)
    | some rollback => (.error (liftDiesel rollback), db)

/-- `ProviderTransactions::transaction_async` (mod.rs): identical
commit/rollback logic; re-deriving the exclusive connection reference
after the future resolves has no observable effect in this model. -/
def transaction_async {σ A E : Type} (liftDiesel : DieselError → E)
    (rollbackOutcome : Option DieselError)
    (work : σ → Except E A × σ) (db : σ) : Except E A × σ :=
  match work db with
  | (.ok value, db1) => (.ok value, db1)
  | (.error err, _) =>
    match rollbackOutcome with
    | none => (.error err, db)
    | some .brokenTransactionManager => (.error err, db)
    | some rollback => (.error (liftDiesel rollback), db)

/-- The `groups` table's primary-key invariant: no two rows share an id. -/
def uniqueIds (db : List StoredGroup) : Prop :=
  db.Pairwise (fun a b => a.id ≠ b.id)

/-- Sample row: a conversation group derived from welcome 7. -/
def gA : StoredGroup :=
  { id := [1]
    created_at_ns := 5
    membership_state := .Allowed
    installations_last_checked := 0
    purpose := .Conversation
    added_by_inbox_id := "alice"
    welcome_id := some 7
    dm_inbox_id := none }

/-- Sample row: same id and welcome id as `gA`, other fields differ. -/
def gDup : StoredGroup := { gA with added_by_inbox_id := "mallory" }

/-- Sample row: same id as `gA` but a different welcome id. -/
def gColl : StoredGroup := { gA with welcome_id := some 8 }

theorem map_eq_self {α : Type} {f : α → α} {l : List α}
    (h : ∀ a ∈ l, f a = a) : l.map f = l := by
  induction l with
  | nil => rfl
  | cons a t ih =>
    simp only [List.map_cons, h a (by simp)]
    rw [ih fun x hx => h x (by simp [hx])]

theorem mem_id_unique {db : List StoredGroup} {a b : StoredGroup}
    (hu : uniqueIds db) (ha : a ∈ db) (hb : b ∈ db) (hid : a.id = b.id) :
    a = b := by
  induction db with
  | nil => cases ha
  | cons x t ih =>
    rcases List.pairwise_cons.mp hu with ⟨hx, ht⟩
    rcases List.mem_cons.mp ha with rfl | ha' <;>
      rcases List.mem_cons.mp hb with rfl | hb'
    · rfl
    · exact absurd hid (hx b hb')
    · exact absurd hid.symm (hx a ha')
    · exact ih ht ha' hb'

theorem mem_sortByCreatedAt {db : List StoredGroup} {g : StoredGroup} :
    g ∈ sortByCreatedAt db ↔ g ∈ db :=
  List.mem_insertionSort createdLe

theorem sorted_sortByCreatedAt (db : List StoredGroup) :
    (sortByCreatedAt db).Pairwise createdLe :=
  List.sorted_insertionSort createdLe db

theorem mem_optFilter {β : Type} {o : Option β} {p : β → StoredGroup → Bool}
    {l : List StoredGroup} {g : StoredGroup} :
    g ∈ optFilter o p l ↔ g ∈ l ∧ ∀ b, o = some b → p b g = true := by
  cases o <;> simp [optFilter, List.mem_filter]

theorem pairwise_optFilter {β : Type} {o : Option β}
    {p : β → StoredGroup → Bool} {l : List StoredGroup}
    (h : l.Pairwise createdLe) : (optFilter o p l).Pairwise createdLe := by
  cases o with
  | none => exact h
  | some b => exact h.filter (p b)

theorem mem_applyLimit {o : Option Int} {l : List StoredGroup}
    {g : StoredGroup} (h : g ∈ applyLimit o l) : g ∈ l := by
  cases o with
  | none => exact h
  | some n =>
    simp only [applyLimit] at h
    by_cases hn : n < 0
    · rwa [if_pos hn] at h
    · rw [if_neg hn] at h
      exact List.mem_of_mem_take h

theorem pairwise_applyLimit {o : Option Int} {l : List StoredGroup}
    (h : l.Pairwise createdLe) : (applyLimit o l).Pairwise createdLe := by
  cases o with
  | none => exact h
  | some n =>
    simp only [applyLimit]
    by_cases hn : n < 0
    · rwa [if_pos hn]
    · rw [if_neg hn]
      exact h.sublist (List.take_sublist _ _)

theorem find_group_of_mem {db : List StoredGroup} {g : StoredGroup}
    (hu : uniqueIds db) (hg : g ∈ db) : find_group db g.id = some g := by
  unfold find_group
  have hmem : g ∈ (sortByCreatedAt db).filter
      (fun x => decide (x.id = g.id)) := by
    simp [List.mem_filter, mem_sortByCreatedAt, hg]
  cases hl : (sortByCreatedAt db).filter (fun x => decide (x.id = g.id)) with
  | nil => rw [hl] at hmem; cases hmem
  | cons a t =>
    have ha : a ∈ (sortByCreatedAt db).filter (fun x => decide (x.id = g.id)) := by
      rw [hl]; exact List.mem_cons_self a t
    rcases List.mem_filter.mp ha with ⟨hasort, haid⟩
    have : a = g := mem_id_unique hu (mem_sortByCreatedAt.mp hasort) hg
      (by simpa using haid)
    simp [this]

/-- **C8**: `welcome_id` is `Some` exactly for welcome-derived groups —
`new_from_welcome` always sets `welcome_id = Some(welcome_id)`, while
`new` and `new_sync_group` set it to `None`; all three constructors set
`installations_last_checked` to 0. -/
theorem constructors_welcome_id_invariant :
    (∀ id created st inbox wid purpose dm,
      (StoredGroup.new_from_welcome id created st inbox wid purpose dm).welcome_id
          = some wid ∧
      (StoredGroup.new_from_welcome id created st inbox wid purpose
          dm).installations_last_checked = 0) ∧
    (∀ id created st inbox dm,
      (StoredGroup.new id created st inbox dm).welcome_id = none ∧
      (StoredGroup.new id created st inbox dm).installations_last_checked = 0) ∧
    (∀ id created st,
      (StoredGroup.new_sync_group id created st).welcome_id = none ∧
      (StoredGroup.new_sync_group id created st).installations_last_checked
          = 0) := by
  refine ⟨?_, ?_, ?_⟩ <;> intros <;> exact ⟨rfl, rfl⟩

/-- **C9**: decoding a persisted integer into `GroupMembershipState` or
`Purpose` returns the matching variant for the defined codes (1, 2, 3
resp. 1, 2) and fails with a decode error for every other integer, so
decode is a left inverse of encode. -/
theorem enum_decode_of_encode :
    (∀ s : GroupMembershipState,
      GroupMembershipState.from_sql s.to_sql = .ok s) ∧
    (∀ p : Purpose, Purpose.from_sql p.to_sql = .ok p) ∧
    GroupMembershipState.from_sql 1 = .ok .Allowed ∧
    GroupMembershipState.from_sql 2 = .ok .Rejected ∧
    GroupMembershipState.from_sql 3 = .ok .Pending ∧
    Purpose.from_sql 1 = .ok .Conversation ∧
    Purpose.from_sql 2 = .ok .Sync ∧
    (∀ x : Int, x ≠ 1 → x ≠ 2 → x ≠ 3 →
      GroupMembershipState.from_sql x
          = .error ("Unrecognized variant " ++ toString x)) ∧
    (∀ x : Int, x ≠ 1 → x ≠ 2 →
      Purpose.from_sql x
          = .error ("Unrecognized variant " ++ toString x)) := by
  refine ⟨fun s => by cases s <;> rfl, fun p => by cases p <;> rfl,
    rfl, rfl, rfl, rfl, rfl, ?_, ?_⟩
  · intro x h1 h2 h3
    simp [GroupMembershipState.from_sql, h1, h2, h3]
  · intro x h1 h2
    simp [Purpose.from_sql, h1, h2]

theorem enum_decode_of_encode_witness :
    GroupMembershipState.from_sql 9
        = .error ("Unrecognized variant " ++ toString (9 : Int)) ∧
    Purpose.from_sql 9
        = .error ("Unrecognized variant " ++ toString (9 : Int)) :=
  ⟨enum_decode_of_encode.2.2.2.2.2.2.2.1 9 (by decide) (by decide) (by decide),
   enum_decode_of_encode.2.2.2.2.2.2.2.2 9 (by decide) (by decide)⟩

/-- **C7**: when a row with the entity's unique key already exists,
`store` fails with a unique-constraint violation while `store_or_ignore`
succeeds as a no-op leaving the table unchanged; when no such row exists,
both insert the entity. -/
theorem store_vs_store_or_ignore {α κ : Type} [DecidableEq κ]
    (key : α → κ) (db : List α) (entity : α) :
    ((∃ g ∈ db, key g = key entity) →
      store key db entity
          = .error (.dieselResult (.databaseError .uniqueViolation)) ∧
      store_or_ignore key db entity = .ok db) ∧
    ((∀ g ∈ db, key g ≠ key entity) →
      store key db entity = .ok (db ++ [entity]) ∧
      store_or_ignore key db entity = .ok (db ++ [entity])) := by
  constructor
  · rintro ⟨g, hg, hkey⟩
    have hany : db.any (fun g => decide (key g = key entity)) = true :=
      List.any_eq_true.mpr ⟨g, hg, by simp [hkey]⟩
    simp [store, store_or_ignore, hany]
  · intro h
    have hany : db.any (fun g => decide (key g = key entity)) = false := by
      simp only [List.any_eq_false, decide_eq_true_eq]
      exact h
    simp [store, store_or_ignore, hany]

theorem store_vs_store_or_ignore_witness :
    (store (fun n : Nat => n) [1, 2] 2
        = .error (.dieselResult (.databaseError .uniqueViolation)) ∧
      store_or_ignore (fun n : Nat => n) [1, 2] 2 = .ok [1, 2]) ∧
    (store (fun n : Nat => n) [1, 2] 3 = .ok [1, 2, 3] ∧
      store_or_ignore (fun n : Nat => n) [1, 2] 3 = .ok [1, 2, 3]) :=
  ⟨(store_vs_store_or_ignore (fun n : Nat => n) [1, 2] 2).1
      ⟨2, by decide, rfl⟩,
   (store_vs_store_or_ignore (fun n : Nat => n) [1, 2] 3).2 (by decide)⟩

/-- **C3**: a work closure that writes and then returns `Err` leaves the
database exactly as it was before the call (the transaction is rolled
back) and the call returns an error; a closure returning `Ok` has its
writes committed.  Stated for `transaction` and `transaction_async`. -/
theorem transaction_atomicity {σ A E : Type} (liftDiesel : DieselError → E)
    (work : σ → Except E A × σ) (db : σ) :
    (∀ e db1, work db = (.error e, db1) →
      transaction liftDiesel none work db = (.error e, db) ∧
      transaction_async liftDiesel none work db = (.error e, db)) ∧
    (∀ v db1, work db = (.ok v, db1) →
      transaction liftDiesel none work db = (.ok v, db1) ∧
      transaction_async liftDiesel none work db = (.ok v, db1)) := by
  constructor <;> intro r db1 h <;>
    simp [transaction, transaction_async, h]

theorem transaction_atomicity_witness :
    transaction StorageError.dieselResult none
        (fun db : List StoredGroup =>
          ((Except.error (StorageError.notFound "boom") :
              Except StorageError Unit), db ++ [gA])) []
      = (.error (.notFound "boom"), ([] : List StoredGroup)) ∧
    find_group
      (transaction StorageError.dieselResult none
        (fun db : List StoredGroup =>
          ((Except.error (StorageError.notFound "boom") :
              Except StorageError Unit), db ++ [gA])) []).2
      [1] = none := by
  have h := (transaction_atomicity StorageError.dieselResult
      (fun db : List StoredGroup =>
        ((Except.error (StorageError.notFound "boom") :
            Except StorageError Unit), db ++ [gA])) []).1
    (.notFound "boom") [gA] rfl
  exact ⟨h.1, by rw [h.1]; rfl⟩

/-- **C4**: when the work closure fails with `e`, the transaction returns
`e` itself both when rollback succeeds and when rollback fails with
`BrokenTransactionManager`; only a rollback failure of any other kind
replaces the returned error with the rollback error.  Stated for
`transaction` and `transaction_async`. -/
theorem rollback_error_selection {σ A E : Type}
    (liftDiesel : DieselError → E) (work : σ → Except E A × σ) (db : σ)
    (e : E) (db1 : σ) (h : work db = (.error e, db1)) :
    (transaction liftDiesel none work db).1 = .error e ∧
    (transaction liftDiesel (some .brokenTransactionManager) work db).1
        = .error e ∧
    (∀ r, r ≠ DieselError.brokenTransactionManager →
      (transaction liftDiesel (some r) work db).1
          = .error (liftDiesel r)) ∧
    (transaction_async liftDiesel none work db).1 = .error e ∧
    (transaction_async liftDiesel (some .brokenTransactionManager) work
        db).1 = .error e ∧
    (∀ r, r ≠ DieselError.brokenTransactionManager →
      (transaction_async liftDiesel (some r) work db).1
          = .error (liftDiesel r)) := by
  refine ⟨by simp [transaction, h], by simp [transaction, h], ?_,
    by simp [transaction_async, h], by simp [transaction_async, h], ?_⟩
  all_goals
    intro r hr
    cases r with
    | brokenTransactionManager => exact absurd rfl hr
    | databaseError k => simp [transaction, transaction_async, h]
    | notFound => simp [transaction, transaction_async, h]

theorem rollback_error_selection_witness :
    (transaction StorageError.dieselResult none
      (fun db : List StoredGroup =>
        ((Except.error (StorageError.notFound "x") :
            Except StorageError Unit), db)) []).1
      = .error (.notFound "x") ∧
    (transaction StorageError.dieselResult (some DieselError.notFound)
      (fun db : List StoredGroup =>
        ((Except.error (StorageError.notFound "x") :
            Except StorageError Unit), db)) []).1
      = .error (.dieselResult .notFound) := by
  have h := rollback_error_selection StorageError.dieselResult
    (fun db : List StoredGroup =>
      ((Except.error (StorageError.notFound "x") :
          Except StorageError Unit), db)) []
    (.notFound "x") [] rfl
  exact ⟨h.1, h.2.2.1 .notFound (by decide)⟩

/-- **C10**: for a group id with no stored row,
`update_group_membership` and `update_installations_time_checked`
succeed and leave the table unchanged, while
`get_installations_time_checked` fails with `NotFound`. -/
theorem updates_on_missing_id (db : List StoredGroup)
    (group_id : List Nat) (state : GroupMembershipState) (now : Int)
    (h : ∀ g ∈ db, g.id ≠ group_id) :
    update_group_membership db group_id state = db ∧
    update_installations_time_checked db group_id now = db ∧
    get_installations_time_checked db group_id
      = .error (.notFound
          ("installation time for group " ++ hexEncode group_id)) := by
  refine ⟨?_, ?_, ?_⟩
  · exact map_eq_self fun g hg => if_neg (h g hg)
  · exact map_eq_self fun g hg => if_neg (h g hg)
  · have hf : db.find? (fun g => decide (g.id = group_id)) = none :=
      List.find?_eq_none.mpr fun g hg => by simp [h g hg]
    simp [get_installations_time_checked, hf]

theorem updates_on_missing_id_witness :
    update_group_membership [gA] [2] .Rejected = [gA] ∧
    update_installations_time_checked [gA] [2] 42 = [gA] ∧
    get_installations_time_checked [gA] [2]
      = .error (.notFound ("installation time for group " ++ hexEncode [2])) :=
  updates_on_missing_id [gA] [2] .Rejected 42 (by decide)

/-- **C1**: inserting a candidate whose `(id, welcome_id)` pair matches a
stored row fails with the distinguished `Duplicate(WelcomeId)` error and
leaves the table — in particular the stored row for that id — unchanged. -/
theorem insert_duplicate_welcome (db : List StoredGroup) (g c : StoredGroup)
    (hu : uniqueIds db) (hg : g ∈ db) (hid : c.id = g.id)
    (hw : c.welcome_id = g.welcome_id) :
    (insert_or_replace_group db c).1
      = .error (.duplicate (.welcomeId g.welcome_id)) ∧
    (insert_or_replace_group db c).2 = db ∧
    find_group (insert_or_replace_group db c).2 c.id = some g := by
  cases hf : db.find? (fun x => decide (x.id = c.id)) with
  | none =>
    exact absurd (of_decide_eq_true (by simp [hid]))
      (List.find?_eq_none.mp hf g hg)
  | some ex =>
    have hex_mem : ex ∈ db := List.mem_of_find?_eq_some hf
    have hex_id : ex.id = c.id := by simpa using List.find?_some hf
    have hexg : ex = g := mem_id_unique hu hex_mem hg (hex_id.trans hid)
    subst hexg
    simp only [insert_or_replace_group, hf]
    rw [if_pos hw.symm]
    refine ⟨rfl, rfl, ?_⟩
    show find_group db c.id = some ex
    rw [hid]
    exact find_group_of_mem hu hex_mem

theorem insert_duplicate_welcome_witness :
    (insert_or_replace_group [gA] gDup).1
      = .error (.duplicate (.welcomeId (some 7))) ∧
    (insert_or_replace_group [gA] gDup).2 = [gA] ∧
    find_group (insert_or_replace_group [gA] gDup).2 [1] = some gA :=
  insert_duplicate_welcome [gA] gA gDup (by simp [uniqueIds]) (by simp)
    rfl rfl

/-- **C2**: inserting a candidate whose id matches a stored row but whose
`welcome_id` differs returns the existing row without error and writes
nothing; `find_group` on that id gives the same single row before and
after. -/
theorem insert_id_collision (db : List StoredGroup) (g c : StoredGroup)
    (hu : uniqueIds db) (hg : g ∈ db) (hid : c.id = g.id)
    (hw : c.welcome_id ≠ g.welcome_id) :
    insert_or_replace_group db c = (.ok g, db) ∧
    find_group db c.id = some g ∧
    find_group (insert_or_replace_group db c).2 c.id = some g := by
  cases hf : db.find? (fun x => decide (x.id = c.id)) with
  | none =>
    exact absurd (of_decide_eq_true (by simp [hid]))
      (List.find?_eq_none.mp hf g hg)
  | some ex =>
    have hex_mem : ex ∈ db := List.mem_of_find?_eq_some hf
    have hex_id : ex.id = c.id := by simpa using List.find?_some hf
    have hexg : ex = g := mem_id_unique hu hex_mem hg (hex_id.trans hid)
    subst hexg
    have hfind : find_group db c.id = some ex := by
      rw [hid]; exact find_group_of_mem hu hex_mem
    simp only [insert_or_replace_group, hf]
    rw [if_neg fun hcond => hw hcond.symm]
    exact ⟨rfl, hfind, hfind⟩

theorem insert_id_collision_witness :
    insert_or_replace_group [gA] gColl = (.ok gA, [gA]) ∧
    find_group [gA] [1] = some gA ∧
    find_group (insert_or_replace_group [gA] gColl).2 [1] = some gA :=
  insert_id_collision [gA] gA gColl (by simp [uniqueIds]) (by simp)
    rfl (by decide)

/-- **C6**: `find_group_by_welcome_id` returns `None` when no row has the
welcome id, the unique matching row when exactly one does, and when
several rows match (an integrity anomaly that is only logged) it returns
a matching row whose `created_at_ns` is least among the matches — all
without returning an error. -/
theorem welcome_lookup (db : List StoredGroup) (wid : Int) :
    ((∀ g ∈ db, g.welcome_id ≠ some wid) →
      find_group_by_welcome_id db wid = none) ∧
    (∀ g, find_group_by_welcome_id db wid = some g →
      g ∈ db ∧ g.welcome_id = some wid ∧
      ∀ x ∈ db, x.welcome_id = some wid →
        g.created_at_ns ≤ x.created_at_ns) ∧
    (∀ g ∈ db, g.welcome_id = some wid →
      ∃ r, find_group_by_welcome_id db wid = some r) ∧
    (∀ g ∈ db, g.welcome_id = some wid →
      (∀ x ∈ db, x.welcome_id = some wid → x = g) →
      find_group_by_welcome_id db wid = some g) := by
  have hmem : ∀ x : StoredGroup,
      x ∈ (sortByCreatedAt db).filter
        (fun y => decide (y.welcome_id = some wid)) ↔
      x ∈ db ∧ x.welcome_id = some wid := by
    intro x
    simp [List.mem_filter, mem_sortByCreatedAt]
  have hsorted : ((sortByCreatedAt db).filter
      (fun y => decide (y.welcome_id = some wid))).Pairwise createdLe :=
    (sorted_sortByCreatedAt db).filter _
  cases hl : (sortByCreatedAt db).filter
      (fun y => decide (y.welcome_id = some wid)) with
  | nil =>
    refine ⟨fun _ => ?_, fun g hg => ?_, fun g hgdb hgw => ?_,
      fun g hgdb hgw _ => ?_⟩
    · simp [find_group_by_welcome_id, hl]
    · simp [find_group_by_welcome_id, hl] at hg
    · have := (hmem g).mpr ⟨hgdb, hgw⟩
      rw [hl] at this
      cases this
    · have := (hmem g).mpr ⟨hgdb, hgw⟩
      rw [hl] at this
      cases this
  | cons a t =>
    have ha : a ∈ db ∧ a.welcome_id = some wid :=
      (hmem a).mp (by rw [hl]; exact List.mem_cons_self a t)
    have hpair : ∀ x ∈ t, createdLe a x := by
      have h2 := hsorted
      rw [hl] at h2
      exact (List.pairwise_cons.mp h2).1
    refine ⟨?_, ?_, ?_, ?_⟩
    · intro h
      exact absurd ha.2 (h a ha.1)
    · intro g hg
      simp only [find_group_by_welcome_id, hl, List.head?_cons,
        Option.some.injEq] at hg
      subst hg
      refine ⟨ha.1, ha.2, ?_⟩
      intro x hx hxw
      have hxl : x ∈ a :: t := by
        rw [← hl]
        exact (hmem x).mpr ⟨hx, hxw⟩
      rcases List.mem_cons.mp hxl with rfl | hxt
      · exact Int.le_refl _
      · exact hpair x hxt
    · intro g hgdb hgw
      exact ⟨a, by simp [find_group_by_welcome_id, hl]⟩
    · intro g hgdb hgw huniq
      have hag : a = g := huniq a ha.1 ha.2
      simp [find_group_by_welcome_id, hl, hag]

theorem welcome_lookup_witness :
    find_group_by_welcome_id [gA] 7 = some gA :=
  (welcome_lookup [gA] 7).2.2.2 gA (by simp) rfl
    (fun x hx _ => List.mem_singleton.mp hx)

/-- **C5**, counterexample to the claim as stated: at `limit = -1` over a
table holding one qualifying group, `find_groups` returns that row — the
negative `i64` goes to SQLite unchecked and a negative `LIMIT` means no
upper bound — so the result does not have "at most limit rows". -/
theorem find_groups_negative_limit_counterexample :
    find_groups [gA] none none none (some (-1)) false = [gA] ∧
    ¬ (((find_groups [gA] none none none (some (-1)) false).length : Int)
        ≤ -1) := by
  constructor
  · rfl
  · decide

/-- **C5** (amended): `find_groups` returns rows ordered by
`created_at_ns` ascending; every returned row is a stored
`Conversation`-purpose row (hence never a `Sync` row) meeting each
supplied filter, DM rows appear only when `include_dm_groups` is true;
with no limit every qualifying stored row is returned; a supplied
nonnegative `LIMIT n` keeps exactly the first `n` rows of the unlimited
result (hence at most `n` rows), while a negative limit is passed to
SQLite unchecked and imposes no bound: the full unlimited result is
returned. -/
theorem find_groups_filters (db : List StoredGroup)
    (states : Option (List GroupMembershipState))
    (after before lim : Option Int) (include_dm : Bool) :
    (find_groups db states after before lim include_dm).Pairwise
      (fun a b => a.created_at_ns ≤ b.created_at_ns) ∧
    (∀ g ∈ find_groups db states after before lim include_dm,
      g ∈ db ∧ g.purpose = Purpose.Conversation ∧
      (∀ s, states = some s → g.membership_state ∈ s) ∧
      (∀ t, after = some t → t < g.created_at_ns) ∧
      (∀ t, before = some t → g.created_at_ns < t) ∧
      (include_dm = false → g.dm_inbox_id = none)) ∧
    (lim = none → ∀ g ∈ db, g.purpose = Purpose.Conversation →
      (∀ s, states = some s → g.membership_state ∈ s) →
      (∀ t, after = some t → t < g.created_at_ns) →
      (∀ t, before = some t → g.created_at_ns < t) →
      (include_dm = false → g.dm_inbox_id = none) →
      g ∈ find_groups db states after before lim include_dm) ∧
    (∀ n, lim = some n → 0 ≤ n →
      (find_groups db states after before lim include_dm).length
          ≤ n.toNat ∧
      find_groups db states after before lim include_dm
        = (find_groups db states after before none include_dm).take
            n.toNat) ∧
    (∀ n, lim = some n → n < 0 →
      find_groups db states after before lim include_dm
        = find_groups db states after before none include_dm) := by
  have hmem_none : ∀ g : StoredGroup,
      g ∈ find_groups db states after before none include_dm ↔
      g ∈ db ∧ g.purpose = Purpose.Conversation ∧
      (∀ s, states = some s → g.membership_state ∈ s) ∧
      (∀ t, after = some t → t < g.created_at_ns) ∧
      (∀ t, before = some t → g.created_at_ns < t) ∧
      (include_dm = false → g.dm_inbox_id = none) := by
    intro g
    cases include_dm <;>
      simp [find_groups, applyLimit, List.mem_filter, mem_optFilter,
        mem_sortByCreatedAt, Option.isNone_iff_eq_none] <;>
      tauto
  have hlim_eq : find_groups db states after before lim include_dm
      = applyLimit lim (find_groups db states after before none
          include_dm) := by
    cases lim <;> rfl
  refine ⟨?_, ?_, ?_, ?_, ?_⟩
  · cases include_dm with
    | false =>
      exact pairwise_applyLimit
        ((((pairwise_optFilter (pairwise_optFilter (pairwise_optFilter
          (sorted_sortByCreatedAt db)))).filter _).filter _))
    | true =>
      exact pairwise_applyLimit
        (((pairwise_optFilter (pairwise_optFilter (pairwise_optFilter
          (sorted_sortByCreatedAt db)))).filter _))
  · intro g hg
    rw [hlim_eq] at hg
    exact (hmem_none g).mp (mem_applyLimit hg)
  · intro hnone g hgdb hpurp hs ha hb hdm
    subst hnone
    exact (hmem_none g).mpr ⟨hgdb, hpurp, hs, ha, hb, hdm⟩
  · intro n hn hnneg
    subst hn
    rw [hlim_eq]
    simp only [applyLimit]
    rw [if_neg (not_lt.mpr hnneg)]
    exact ⟨List.length_take_le _ _, rfl⟩
  · intro n hn hneg
    subst hn
    rw [hlim_eq]
    simp only [applyLimit]
    rw [if_pos hneg]

theorem find_groups_filters_witness :
    gA ∈ find_groups [gA] none none none none false :=
  (find_groups_filters [gA] none none none none false).2.2.1 rfl gA
    (by simp) rfl (fun s hs => by cases hs) (fun t ht => by cases ht)
    (fun t ht => by cases ht) (fun _ => rfl)

end XmtpStorage
